import Mathlib

/-!
Verification of the multi-backend package-manager abstraction layer of
`pkgtool` against its natural-language specification.

The embedding follows the Rust source under `src/`:

* `src/ui/mod.rs` — the `App` state (`InputMode`, input buffer, tab index,
  result lists, error message, the registry of package managers) and its
  operations `initialize_package_managers`, `handle_key_event`,
  `handle_input`, `search_packages`, `update_system`.
* `src/package_managers/mod.rs` — the `PackageManager` trait (capability
  contract): `initialize`, `search`, `install`, `remove`, `update_system`,
  `get_updates`, all fallible (`anyhow::Result`), embedded as `Except String`.
* `src/package_managers/apt.rs` — `AptManager` with a `cache : PackageCache`
  field.  The `PackageCache` type and the mutating trait methods of
  `AptManager` live in files of the repository that are not under `src/`
  (`common.rs`; the apt impl shows only a placeholder comment for them), so
  those parts are modelled from the spec where a claim needs them, and are
  marked `Modelled from the spec:` below.

The `App` holds its registry in a `HashMap<String, Box<dyn PackageManager>>`
and iterates it with `values()`, whose iteration order is unspecified in
Rust.  The embedding therefore represents one concrete iteration order as a
`List (String × PackageManager)` argument; properties that should hold for
every possible iteration order quantify over that list (and over
permutations of it).
-/

/-- Modelled from the spec: `PackageInfo` (its struct lives in the
repository's `common.rs`, which is not under `src/`): name, version
(opaque string), source backend tag, optional description. -/
structure PackageInfo where
  name : String
  version : String
  source : String
  description : Option String
deriving DecidableEq, Repr

/-- Modelled from the spec: `PackageUpdate` (struct in `common.rs`, not under
`src/`): name, currently-installed version, candidate version, source
backend tag. -/
structure PackageUpdate where
  name : String
  current_version : String
  candidate_version : String
  source : String
deriving DecidableEq, Repr

/-- The pure behaviour of one backend adapter as seen by the `App`'s
fan-out code (`src/ui/mod.rs` only calls `search` and `get_updates` on the
trait objects); each call returns `anyhow::Result`, embedded as
`Except String`. -/
structure PackageManager where
  search : String → Except String (List PackageInfo)
  get_updates : Except String (List PackageUpdate)

/-- `InputMode` from `src/ui/mod.rs` (`Normal` is the `Default`). -/
inductive InputMode where
  | Normal
  | Editing
deriving DecidableEq, Repr

/-- The fields of `App` from `src/ui/mod.rs` that its methods read and
write.  The `package_managers : HashMap<String, Box<dyn PackageManager>>`
field is represented outside this structure, as the list of its entries in
one concrete `values()` iteration order (see the file header). -/
structure AppState where
  input_mode : InputMode
  input : String
  selected_tab : Nat
  package_list : List PackageInfo
  updates_available : List PackageUpdate
  error_message : Option String
deriving DecidableEq, Repr

namespace App

/-- The state built by `App::new` in `src/ui/mod.rs` before
`initialize_package_managers` runs: `Normal` mode, empty input, tab 0,
empty result lists, no error. -/
def initialState : AppState :=
  { input_mode := InputMode.Normal
    input := ""
    selected_tab := 0
    package_list := []
    updates_available := []
    error_message := none }

/-- `App::search_packages` (`src/ui/mod.rs:216`): iterate the registry's
managers in the given iteration order; `if let Ok(packages) = manager.search(query)`
extends `package_list`, an `Err` is skipped; always returns `Ok(())`. -/
def search_packages (managers : List (String × PackageManager)) (query : String)
    (s : AppState) : AppState × Except String Unit :=
  ({ s with
      package_list :=
        managers.foldl
          (fun acc m =>
            match m.2.search query with
            | Except.ok packages => acc ++ packages
            | Except.error _ => acc)
          s.package_list },
   Except.ok ())

/-- `App::update_system` (`src/ui/mod.rs:225`): iterate the registry's
managers; `if let Ok(updates) = manager.get_updates()` extends
`updates_available`, an `Err` is skipped; always returns `Ok(())`. -/
def update_system (managers : List (String × PackageManager))
    (s : AppState) : AppState × Except String Unit :=
  ({ s with
      updates_available :=
        managers.foldl
          (fun acc m =>
            match m.2.get_updates with
            | Except.ok updates => acc ++ updates
            | Except.error _ => acc)
          s.updates_available },
   Except.ok ())

/-- The list of successful per-backend search results, in iteration order
(the `Ok` cases of `manager.search(query)` that `search_packages` keeps). -/
def okSearchResults (managers : List (String × PackageManager)) (query : String) :
    List (List PackageInfo) :=
  managers.filterMap (fun m => (m.2.search query).toOption)

/-- The list of successful per-backend update results, in iteration order. -/
def okUpdateResults (managers : List (String × PackageManager)) :
    List (List PackageUpdate) :=
  managers.filterMap (fun m => m.2.get_updates.toOption)

/-- `active_backends`: the ordered backend tags of the registry entries. -/
def active_backends (managers : List (String × PackageManager)) : List String :=
  managers.map (fun m => m.1)

end App

/-- The (name, source backend) key by which the spec says merged search
results are deduplicated. -/
def pkgKey (p : PackageInfo) : String × String := (p.name, p.source)

section FanOutLemmas

/-- The fold inside `search_packages` is plain concatenation of the
successful results onto the accumulator. -/
theorem search_fold_eq (managers : List (String × PackageManager)) (query : String)
    (acc : List PackageInfo) :
    managers.foldl
      (fun acc m =>
        match m.2.search query with
        | Except.ok packages => acc ++ packages
        | Except.error _ => acc)
      acc = acc ++ (App.okSearchResults managers query).flatten := by
  induction managers generalizing acc with
  | nil => simp [App.okSearchResults]
  | cons m rest ih =>
      cases h : m.2.search query with
      | ok packages =>
          simp [App.okSearchResults, List.filterMap_cons, h, Except.toOption, ih,
            List.append_assoc]
      | error e =>
          simp [App.okSearchResults, List.filterMap_cons, h, Except.toOption, ih]

/-- The fold inside `update_system` is plain concatenation of the
successful results onto the accumulator. -/
theorem update_fold_eq (managers : List (String × PackageManager))
    (acc : List PackageUpdate) :
    managers.foldl
      (fun acc m =>
        match m.2.get_updates with
        | Except.ok updates => acc ++ updates
        | Except.error _ => acc)
      acc = acc ++ (App.okUpdateResults managers).flatten := by
  induction managers generalizing acc with
  | nil => simp [App.okUpdateResults]
  | cons m rest ih =>
      cases h : m.2.get_updates with
      | ok updates =>
          simp [App.okUpdateResults, List.filterMap_cons, h, Except.toOption, ih,
            List.append_assoc]
      | error e =>
          simp [App.okUpdateResults, List.filterMap_cons, h, Except.toOption, ih]

/-- `search_packages` in closed form: it appends the concatenation of the
successful backends' results to the existing `package_list`, touches no
other field, and always returns `Ok(())`. -/
theorem search_packages_eq (managers : List (String × PackageManager))
    (query : String) (s : AppState) :
    App.search_packages managers query s =
      ({ s with package_list :=
          s.package_list ++ (App.okSearchResults managers query).flatten },
       Except.ok ()) := by
  simp [App.search_packages, search_fold_eq]

/-- `update_system` in closed form: it appends the concatenation of the
successful backends' update lists to `updates_available`, touches no other
field, and always returns `Ok(())`. -/
theorem update_system_eq (managers : List (String × PackageManager)) (s : AppState) :
    App.update_system managers s =
      ({ s with updates_available :=
          s.updates_available ++ (App.okUpdateResults managers).flatten },
       Except.ok ()) := by
  simp [App.update_system, update_fold_eq]

end FanOutLemmas

namespace App

/-- `App::initialize_package_managers` (`src/ui/mod.rs:55`): try
`AptManager::new()`; on `Ok` insert the manager under the key `"apt"`, on
`Err` skip it; in both cases return `Ok(())`.  `AptManager::new` is code of
the repository not under `src/`, so its outcome is an argument.  The
function returns the registry contents together with the `Result`. -/
def initialize_package_managers (aptNew : Except String PackageManager) :
    List (String × PackageManager) × Except String Unit :=
  match aptNew with
  | Except.ok apt_manager => ([("apt", apt_manager)], Except.ok ())
  | Except.error _ => ([], Except.ok ())

end App

/-- The key codes `App::handle_key_event` (`src/ui/mod.rs:89`) distinguishes
(`crossterm::event::KeyCode`); every other key falls into the catch-all
arms of the Rust `match`. -/
inductive KeyCode where
  | char : Char → KeyCode
  | enter : KeyCode
  | backspace : KeyCode
  | esc : KeyCode
  | tab : KeyCode
  | other : KeyCode
deriving DecidableEq, Repr

namespace App

/-- `App::handle_input` (`src/ui/mod.rs:124`): split the input buffer on
whitespace; `"search"` with an argument runs `search_packages`, `"update"`
runs `update_system`, any other first word sets
`error_message = Some("Unknown command")`, an empty input does nothing.
All paths return `Ok(())` because `search_packages` and `update_system`
never fail. -/
def handle_input (managers : List (String × PackageManager)) (s : AppState) :
    AppState :=
  match (s.input.splitOn " ").filter (fun w => w ≠ "") with
  | [] => s
  | command :: rest =>
    if command = "search" then
      match rest with
      | query :: _ => (search_packages managers query s).1
      | [] => s
    else if command = "update" then
      (update_system managers s).1
    else
      { s with error_message := some "Unknown command" }

/-- `App::handle_key_event` (`src/ui/mod.rs:89`).  In `Normal` mode: `'q'`
returns `Ok(false)`, `'e'` switches to `Editing`, `Tab` advances
`selected_tab` modulo 3, everything else is ignored.  In `Editing` mode:
`Enter` runs `handle_input`, clears the buffer and returns to `Normal`;
a character is pushed onto the buffer; `Backspace` pops the last character;
`Esc` returns to `Normal`.  All paths but `Normal`/`'q'` return `Ok(true)`;
the result is never `Err` because `handle_input` never fails, so the
`Result<bool>` is embedded as a plain `Bool`. -/
def handle_key_event (managers : List (String × PackageManager))
    (key : KeyCode) (s : AppState) : AppState × Bool :=
  match s.input_mode with
  | InputMode.Normal =>
    match key with
    | KeyCode.char c =>
        if c = 'q' then (s, false)
        else if c = 'e' then ({ s with input_mode := InputMode.Editing }, true)
        else (s, true)
    | KeyCode.tab =>
        ({ s with selected_tab := (s.selected_tab + 1) % 3 }, true)
    | _ => (s, true)
  | InputMode.Editing =>
    match key with
    | KeyCode.enter =>
        let s' := handle_input managers s
        ({ s' with input := "", input_mode := InputMode.Normal }, true)
    | KeyCode.char c => ({ s with input := s.input.push c }, true)
    | KeyCode.backspace => ({ s with input := s.input.dropRight 1 }, true)
    | KeyCode.esc => ({ s with input_mode := InputMode.Normal }, true)
    | _ => (s, true)

/-- The event loop of `App::run` (`src/ui/mod.rs:67`) restricted to key
events: fold `handle_key_event` over a list of keys starting from
`App::new`'s state (rendering does not change the state). -/
def processKeys (managers : List (String × PackageManager))
    (keys : List KeyCode) : AppState :=
  keys.foldl (fun s k => (handle_key_event managers k s).1) initialState

end App

/-- Modelled from the spec: the operation keys of a per-backend result
cache, "(operation kind, normalized query string where applicable)"
(`common.rs` is not under `src/`). -/
inductive OpKey where
  | searchKey : String → OpKey
  | updatesKey : OpKey
deriving DecidableEq, Repr

/-- Modelled from the spec: a cached read outcome — a package list for a
search key or an update list for the updates key. -/
inductive CachedResult where
  | pkgs : List PackageInfo → CachedResult
  | upds : List PackageUpdate → CachedResult
deriving DecidableEq, Repr

/-- Modelled from the spec: `PackageCache` (`common.rs`, not under `src/`):
"CacheEntry: (operation key, captured-at timestamp, cached
OperationOutcome)", one cache owned by one backend adapter.  Timestamps
are logical times (`Nat`). -/
structure PackageCache where
  entries : List (OpKey × Nat × CachedResult)
deriving DecidableEq, Repr

/-- `AptManager` from `src/package_managers/apt.rs:6`: its one field is its
`PackageCache`. -/
structure AptManager where
  cache : PackageCache
deriving DecidableEq, Repr

namespace AptManager

/-- Look an operation key up in the cache. -/
def cacheLookup (k : OpKey) (c : PackageCache) : Option (Nat × CachedResult) :=
  (c.entries.find? (fun e => e.1 = k)).map (fun e => e.2)

/-- Modelled from the spec: a cache-backed `search` (the body in
`src/package_managers/apt.rs` is a stub returning `Ok(vec![])` with the
comment `// Implementation`; the spec routes each adapter call "through its
Cache").  `hostSearch t q` is what a fresh subprocess invocation at logical
time `t` would return.  The result carries the captured-at timestamp of the
data that is returned: a cache hit returns the entry's stored timestamp, a
miss captures fresh data at the current time `now` and stores it. -/
def searchCached (hostSearch : Nat → String → List PackageInfo) (now : Nat)
    (q : String) (a : AptManager) : (List PackageInfo × Nat) × AptManager :=
  match cacheLookup (OpKey.searchKey q) a.cache with
  | some (t, CachedResult.pkgs ps) => ((ps, t), a)
  | _ =>
      let fresh := hostSearch now q
      ((fresh, now),
       { cache := ⟨(OpKey.searchKey q, now, CachedResult.pkgs fresh) :: a.cache.entries⟩ })

/-- Modelled from the spec: a cache-backed `get_updates`, symmetric to
`searchCached`. -/
def getUpdatesCached (hostUpdates : Nat → List PackageUpdate) (now : Nat)
    (a : AptManager) : (List PackageUpdate × Nat) × AptManager :=
  match cacheLookup OpKey.updatesKey a.cache with
  | some (t, CachedResult.upds us) => ((us, t), a)
  | _ =>
      let fresh := hostUpdates now
      ((fresh, now),
       { cache := ⟨(OpKey.updatesKey, now, CachedResult.upds fresh) :: a.cache.entries⟩ })

/-- Modelled from the spec: `install` (apt.rs shows only the placeholder
`// Other trait implementations...`): "every mutating operation
(install/remove/update_system) must invalidate that backend's cache entries
for search and get_updates before returning, regardless of success or
failure".  `result` is the outcome of the underlying subprocess. -/
def install (result : Except String Unit) (packages : List String)
    (a : AptManager) : AptManager × Except String Unit :=
  let _ := packages
  let _ := a
  (⟨⟨[]⟩⟩, result)

/-- Modelled from the spec: `remove`, symmetric to `install`. -/
def remove (result : Except String Unit) (packages : List String)
    (a : AptManager) : AptManager × Except String Unit :=
  let _ := packages
  let _ := a
  (⟨⟨[]⟩⟩, result)

/-- Modelled from the spec: the adapter-level `update_system`, which applies
all pending upgrades and invalidates the cache before returning. -/
def update_system (result : Except String Unit) (a : AptManager) :
    AptManager × Except String Unit :=
  let _ := a
  (⟨⟨[]⟩⟩, result)

end AptManager

/-! ### Concrete fixtures used by counterexamples and witnesses -/

/-- The spec's example package: vim 9.0 as reported by apt. -/
def vimApt : PackageInfo := ⟨"vim", "9.0", "apt", none⟩

/-- A second package with a different source tag. -/
def vimDnf : PackageInfo := ⟨"vim", "9.1", "dnf", none⟩

/-- A pending update reported by apt. -/
def updApt : PackageUpdate := ⟨"vim", "9.0", "9.1", "apt"⟩

/-- A backend whose search answers every query with `[vimApt]` and that
reports one pending update. -/
def mgrApt : PackageManager :=
  ⟨fun _ => Except.ok [vimApt], Except.ok [updApt]⟩

/-- A backend whose search answers every query with `[vimDnf]`. -/
def mgrDnf : PackageManager :=
  ⟨fun _ => Except.ok [vimDnf], Except.ok []⟩

/-- A backend whose search returns the same entry twice in one reply. -/
def mgrDup : PackageManager :=
  ⟨fun _ => Except.ok [vimApt, vimApt], Except.ok []⟩

/-- A backend made to fail every call (`BackendInvocationFailed`). -/
def mgrFail : PackageManager :=
  ⟨fun _ => Except.error "invocation failed", Except.error "invocation failed"⟩

/-! ### C1 — deduplication of merged search results -/

/-- C1, counterexample.  The claim says the merged result of a fan-out
search never contains two entries with the same (name, source backend)
pair.  But `App::search_packages` has no deduplication step at all: with a
single registered backend whose search reply lists the same package twice,
the merged `package_list` is that reply verbatim, containing the pair
("vim", "apt") twice. -/
theorem search_merge_dedup_cex :
    ¬ (((App.search_packages [("apt", mgrDup)] "vim" App.initialState).1.package_list.map
        pkgKey).Nodup) := by
  decide

/-- C1, amended.  The merge performs no deduplication by (name, source
backend): `search_packages` appends the concatenation of the successful
backends' replies to the existing `package_list` unchanged, so duplicate
(name, source backend) pairs survive exactly as the backends (and previous
searches) produced them. -/
theorem search_merge_no_dedup (managers : List (String × PackageManager))
    (query : String) (s : AppState) :
    (App.search_packages managers query s).1.package_list =
      s.package_list ++ (App.okSearchResults managers query).flatten := by
  simp [search_packages_eq]

/-! ### C2 — per-backend failures during fan-out -/

/-- C2, counterexample.  The claim says every per-backend failure is
captured and returned alongside the merged results, with exactly one
recorded failure when exactly one backend fails every call.  But
`App::search_packages` discards the `Err` arm of `manager.search` with
`if let Ok(...)`: registering a backend that fails every call leaves the
whole outcome (state and returned `Result`) bit-for-bit identical to never
having registered it — no failure is recorded anywhere (`error_message`
stays `None`, the return value is `Ok(())`). -/
theorem search_failure_silently_dropped_cex :
    App.search_packages [("apt", mgrApt), ("dnf", mgrFail)] "vim" App.initialState
        = App.search_packages [("apt", mgrApt)] "vim" App.initialState ∧
    (App.search_packages [("apt", mgrApt), ("dnf", mgrFail)] "vim"
        App.initialState).1.error_message = none ∧
    (App.search_packages [("apt", mgrApt), ("dnf", mgrFail)] "vim"
        App.initialState).2 = Except.ok () := by
  exact ⟨rfl, rfl, rfl⟩

/-- C2, amended.  A failing backend never aborts the fan-out and the other
backends' results are still merged, but the failure is silently dropped
rather than captured: for both `search_packages` and `update_system`, a
backend that fails the call contributes nothing and leaves no trace — the
result is identical to running without that backend, and no failure count
or message is returned. -/
theorem fanout_failure_silent (ms₁ ms₂ : List (String × PackageManager))
    (tag : String) (bad : PackageManager) (query : String) (s : AppState)
    (hs : (bad.search query).toOption = none)
    (hu : bad.get_updates.toOption = none) :
    App.search_packages (ms₁ ++ (tag, bad) :: ms₂) query s =
      App.search_packages (ms₁ ++ ms₂) query s ∧
    App.update_system (ms₁ ++ (tag, bad) :: ms₂) s =
      App.update_system (ms₁ ++ ms₂) s := by
  constructor
  · simp [search_packages_eq, App.okSearchResults, List.filterMap_append,
      List.filterMap_cons, hs]
  · simp [update_system_eq, App.okUpdateResults, List.filterMap_append,
      List.filterMap_cons, hu]

/-- C2 witness: with apt succeeding and dnf failing every call, the merged
search result still holds apt's reply and the update fan-out still holds
apt's update. -/
theorem fanout_failure_silent_witness :
    App.search_packages [("apt", mgrApt), ("dnf", mgrFail)] "x" App.initialState =
      App.search_packages [("apt", mgrApt)] "x" App.initialState ∧
    App.update_system [("apt", mgrApt), ("dnf", mgrFail)] App.initialState =
      App.update_system [("apt", mgrApt)] App.initialState := by
  have h := fanout_failure_silent [("apt", mgrApt)] [] "dnf" mgrFail "x"
    App.initialState (by decide) (by decide)
  simpa using h

/-! ### C3 — backend discovery failure policy -/

/-- C3, counterexample.  The claim says discovery returns an error exactly
when zero adapters initialize.  But `App::initialize_package_managers`
returns `Ok(())` unconditionally: when `AptManager::new()` (the only
adapter tried) fails, the registry ends up empty — zero backends — and the
function still reports success, so no `NoBackendsAvailable`-style fatal
error exists in the code. -/
theorem discovery_zero_backends_ok_cex :
    (App.initialize_package_managers (Except.error "apt not found")).1 = [] ∧
    (App.initialize_package_managers (Except.error "apt not found")).2 =
      Except.ok () := by
  exact ⟨rfl, rfl⟩

/-- C3, amended.  An adapter that fails initialization is excluded from the
registry and its failure is non-fatal, but discovery never returns an error
at all — even when zero adapters initialize successfully the function
returns `Ok(())` (and the failure reason is discarded, not recorded): the
registry holds exactly the apt adapter when `AptManager::new` succeeds and
is empty when it fails. -/
theorem discovery_never_fatal (e : String) (m : PackageManager) :
    (App.initialize_package_managers (Except.error e)).2 = Except.ok () ∧
    (App.initialize_package_managers (Except.ok m)).2 = Except.ok () ∧
    (App.initialize_package_managers (Except.error e)).1 = [] ∧
    (App.initialize_package_managers (Except.ok m)).1 = [("apt", m)] := by
  exact ⟨rfl, rfl, rfl, rfl⟩

/-! ### C4 — mutating operations invalidate the cache -/

/-- C4.  Every mutating operation on the apt adapter — `install`, `remove`,
`update_system` — empties the backend's cache before returning, whether the
underlying operation succeeds or fails; consequently, after a successful
`install(["x"])` at logical time `tInst`, a later `search` or
`get_updates` (at any time `tRead ≥ tInst`) finds an empty cache, captures
fresh data at `tRead`, and therefore never returns data captured strictly
before the install call. -/
theorem mutating_ops_invalidate_cache (a : AptManager) (pkgs : List String)
    (r : Except String Unit) (hostS : Nat → String → List PackageInfo)
    (hostU : Nat → List PackageUpdate) (tInst tRead : Nat) (q : String)
    (h : tInst ≤ tRead) :
    (AptManager.install r pkgs a).1.cache.entries = [] ∧
    (AptManager.remove r pkgs a).1.cache.entries = [] ∧
    (AptManager.update_system r a).1.cache.entries = [] ∧
    (AptManager.install (Except.ok ()) ["x"] a).2 = Except.ok () ∧
    ¬ ((AptManager.searchCached hostS tRead q
          (AptManager.install (Except.ok ()) ["x"] a).1).1.2 < tInst) ∧
    ¬ ((AptManager.getUpdatesCached hostU tRead
          (AptManager.install (Except.ok ()) ["x"] a).1).1.2 < tInst) := by
  refine ⟨rfl, rfl, rfl, rfl, ?_, ?_⟩
  · simp [AptManager.install, AptManager.searchCached, AptManager.cacheLookup]
    omega
  · simp [AptManager.install, AptManager.getUpdatesCached, AptManager.cacheLookup]
    omega

/-- C4 witness: a concrete adapter whose cache holds a stale entry captured
at time 0; installing at time 1 clears the cache, and a search at time 2
returns data captured at time 2, not the stale entry. -/
theorem mutating_ops_invalidate_cache_witness :
    (AptManager.install (Except.ok ()) ["x"]
        ⟨⟨[(OpKey.searchKey "x", 0, CachedResult.pkgs [vimApt])]⟩⟩).1.cache.entries
      = [] ∧
    ¬ ((AptManager.searchCached (fun _ _ => [vimApt]) 2 "x"
        (AptManager.install (Except.ok ()) ["x"]
          ⟨⟨[(OpKey.searchKey "x", 0, CachedResult.pkgs [vimApt])]⟩⟩).1).1.2 < 1) := by
  have h := mutating_ops_invalidate_cache
    ⟨⟨[(OpKey.searchKey "x", 0, CachedResult.pkgs [vimApt])]⟩⟩ ["x"]
    (Except.ok ()) (fun _ _ => [vimApt]) (fun _ => []) 1 2 "x" (by decide)
  exact ⟨h.1, h.2.2.2.2.1⟩

/-! ### C5 — update_system idempotence -/

/-- C5, counterexample.  The claim says a second consecutive
`update_system()` is a no-op on observable application state.  But
`App::update_system` appends the backends' `get_updates` replies to
`updates_available` on every call: with one backend reporting one pending
update, the first call leaves `[updApt]` and the second leaves
`[updApt, updApt]`, so the second call changes the application state. -/
theorem update_twice_not_noop_cex :
    (App.update_system [("apt", mgrApt)]
        (App.update_system [("apt", mgrApt)] App.initialState).1).1.updates_available
      = [updApt, updApt] ∧
    (App.update_system [("apt", mgrApt)] App.initialState).1.updates_available
      = [updApt] ∧
    (App.update_system [("apt", mgrApt)]
        (App.update_system [("apt", mgrApt)] App.initialState).1).1
      ≠ (App.update_system [("apt", mgrApt)] App.initialState).1 := by
  refine ⟨rfl, rfl, ?_⟩
  decide

/-- C5, amended.  Both consecutive calls to `update_system()` succeed, and
the host's state is untouched (the method only calls the read-only
`get_updates`, never a mutating backend operation), but the second call is
not a no-op on application state: each call appends the fan-out's
successful update lists again, so after two calls `updates_available`
holds the merged update list twice.  The second call is a no-op exactly
when every backend reports no updates. -/
theorem update_twice_appends_again (managers : List (String × PackageManager))
    (s : AppState) :
    (App.update_system managers s).2 = Except.ok () ∧
    (App.update_system managers (App.update_system managers s).1).2 =
      Except.ok () ∧
    (App.update_system managers (App.update_system managers s).1).1 =
      { s with updates_available := s.updates_available ++
          (App.okUpdateResults managers).flatten ++
          (App.okUpdateResults managers).flatten } := by
  refine ⟨by simp [update_system_eq], by simp [update_system_eq], ?_⟩
  simp [update_system_eq]

/-! ### C6 — determinism and ordering of the merge -/

/-- C6, counterexample.  The claim says the merged list is concatenated in
registry registration order, so two runs over the same registered backends
with the same per-backend replies always produce the same merged list.
But `App::search_packages` iterates `self.package_managers.values()`, a
`HashMap` whose iteration order is unspecified: the same two-backend
registry traversed in its two possible iteration orders yields two
different merged lists. -/
theorem merge_order_dependent_cex :
    ([("apt", mgrApt), ("dnf", mgrDnf)] : List (String × PackageManager)).Perm
      [("dnf", mgrDnf), ("apt", mgrApt)] ∧
    (App.search_packages [("apt", mgrApt), ("dnf", mgrDnf)] "vim"
        App.initialState).1.package_list
      ≠ (App.search_packages [("dnf", mgrDnf), ("apt", mgrApt)] "vim"
        App.initialState).1.package_list := by
  refine ⟨List.Perm.swap _ _ _, ?_⟩
  decide

/-- C6, amended.  The merged list is the concatenation of the successful
per-backend replies in the `HashMap` iteration order actually traversed,
which is unspecified and need not be registration order — so the merged
list's ordering is deterministic only given that traversal order, while as
a multiset the merge is order-independent: any two traversal orders that
are permutations of one another produce merged `package_list`s that are
permutations of one another. -/
theorem merge_deterministic_up_to_perm (o₁ o₂ : List (String × PackageManager))
    (query : String) (s : AppState) (h : o₁.Perm o₂) :
    ((App.search_packages o₁ query s).1.package_list).Perm
      ((App.search_packages o₂ query s).1.package_list) := by
  rw [search_packages_eq, search_packages_eq]
  exact ((h.filterMap _).flatten).append_left s.package_list

/-- C6 witness: the two traversal orders of the apt/dnf registry yield
merged lists that are permutations of one another. -/
theorem merge_deterministic_up_to_perm_witness :
    ((App.search_packages [("apt", mgrApt), ("dnf", mgrDnf)] "vim"
        App.initialState).1.package_list).Perm
      ((App.search_packages [("dnf", mgrDnf), ("apt", mgrApt)] "vim"
        App.initialState).1.package_list) :=
  merge_deterministic_up_to_perm _ _ "vim" App.initialState
    (List.Perm.swap _ _ _)

/-! ### C7 — merged entries carry registered source tags -/

/-- C7.  Provided each registered adapter tags the entries it produces with
its own backend tag (the adapters' parsing code is in files not under
`src/`; the spec's data model says a `PackageInfo`/`PackageUpdate` carries
the source backend tag of the adapter that created it), every entry of a
fan-out `search(q)` or `get_updates()` result carries a source tag that is
a member of `active_backends()` — the merge draws only from the registered
managers, and backends that failed to initialize are not in the registry,
so no entry is ever produced for them. -/
theorem merged_entry_tags_registered (ms : List (String × PackageManager))
    (q : String)
    (hS : ∀ p ∈ ms, ∀ query ps, p.2.search query = Except.ok ps →
      ∀ pkg ∈ ps, pkg.source = p.1)
    (hU : ∀ p ∈ ms, ∀ us, p.2.get_updates = Except.ok us →
      ∀ u ∈ us, u.source = p.1) :
    (∀ pkg ∈ (App.search_packages ms q App.initialState).1.package_list,
       pkg.source ∈ App.active_backends ms) ∧
    (∀ u ∈ (App.update_system ms App.initialState).1.updates_available,
       u.source ∈ App.active_backends ms) := by
  constructor
  · intro pkg hpkg
    rw [search_packages_eq] at hpkg
    simp only [App.initialState, List.nil_append, List.mem_flatten,
      App.okSearchResults, List.mem_filterMap] at hpkg
    obtain ⟨l, ⟨p, hpmem, hpopt⟩, hpl⟩ := hpkg
    cases hsearch : p.2.search q with
    | ok ps =>
        rw [hsearch] at hpopt
        simp only [Except.toOption, Option.some.injEq] at hpopt
        rw [← hpopt] at hpl
        have := hS p hpmem q ps hsearch pkg hpl
        rw [this]
        exact List.mem_map_of_mem _ hpmem
    | error e =>
        rw [hsearch] at hpopt
        simp [Except.toOption] at hpopt
  · intro u hu
    rw [update_system_eq] at hu
    simp only [App.initialState, List.nil_append, List.mem_flatten,
      App.okUpdateResults, List.mem_filterMap] at hu
    obtain ⟨l, ⟨p, hpmem, hpopt⟩, hpl⟩ := hu
    cases hupd : p.2.get_updates with
    | ok us =>
        rw [hupd] at hpopt
        simp only [Except.toOption, Option.some.injEq] at hpopt
        rw [← hpopt] at hpl
        have := hU p hpmem us hupd u hpl
        rw [this]
        exact List.mem_map_of_mem _ hpmem
    | error e =>
        rw [hupd] at hpopt
        simp [Except.toOption] at hpopt

/-- C7 witness: in the one-backend apt registry, the entry the merged
search result holds (vimApt) carries a tag that is a registered backend. -/
theorem merged_entry_tags_registered_witness :
    vimApt.source ∈ App.active_backends [("apt", mgrApt)] := by
  have h := merged_entry_tags_registered [("apt", mgrApt)] "vim"
    (by
      intro p hp query ps hps pkg hpkg
      simp only [List.mem_singleton] at hp
      subst hp
      simp only [mgrApt, Except.ok.injEq] at hps
      subst hps
      simp only [List.mem_singleton] at hpkg
      subst hpkg
      rfl)
    (by
      intro p hp us hus u hu
      simp only [List.mem_singleton] at hp
      subst hp
      simp only [mgrApt, Except.ok.injEq] at hus
      subst hus
      simp only [List.mem_singleton] at hu
      subst hu
      rfl)
  exact h.1 vimApt (by decide)


/-! ### C9 — the tab index invariant -/

/-- `handle_input` never changes `selected_tab`: its branches only touch
`package_list`, `updates_available` and `error_message`. -/
theorem handle_input_selected_tab (ms : List (String × PackageManager))
    (s : AppState) :
    (App.handle_input ms s).selected_tab = s.selected_tab := by
  unfold App.handle_input
  split
  · rfl
  · split
    · split
      · simp [search_packages_eq]
      · rfl
    · split
      · simp [update_system_eq]
      · rfl

/-- One key event preserves `selected_tab < 3`: the only handler writing
the field is the Tab arm, which stores `(selected_tab + 1) % 3`. -/
theorem handle_key_event_selected_tab_lt (ms : List (String × PackageManager))
    (k : KeyCode) (s : AppState) (h : s.selected_tab < 3) :
    (App.handle_key_event ms k s).1.selected_tab < 3 := by
  unfold App.handle_key_event
  cases hm : s.input_mode with
  | Normal =>
      cases k with
      | char c =>
          by_cases hq : c = 'q'
          · simpa [hq] using h
          · by_cases he : c = 'e' <;> simpa [hq, he] using h
      | tab => exact Nat.mod_lt _ (by norm_num)
      | enter => simpa using h
      | backspace => simpa using h
      | esc => simpa using h
      | other => simpa using h
  | Editing =>
      cases k with
      | enter =>
          show (App.handle_input ms s).selected_tab < 3
          rw [handle_input_selected_tab]
          exact h
      | char c => simpa using h
      | tab => simpa using h
      | backspace => simpa using h
      | esc => simpa using h
      | other => simpa using h

/-- C9.  Starting from `App::new`'s state, every sequence of key events
keeps `selected_tab` strictly below 3 (i.e. in {0, 1, 2}): the initial
value is 0, the Tab handler maps the field to `(selected_tab + 1) % 3`,
and no other handler writes it — so the `unreachable!()` arm of the
`match self.selected_tab` in `App::render` can never be reached. -/
theorem selected_tab_always_lt_three (ms : List (String × PackageManager))
    (keys : List KeyCode) :
    (App.processKeys ms keys).selected_tab < 3 := by
  have aux : ∀ (ks : List KeyCode) (s : AppState), s.selected_tab < 3 →
      (ks.foldl (fun s k => (App.handle_key_event ms k s).1) s).selected_tab < 3 := by
    intro ks
    induction ks with
    | nil => intro s h; simpa using h
    | cons k rest ih =>
        intro s h
        exact ih _ (handle_key_event_selected_tab_lt ms k s h)
  exact aux keys App.initialState (by decide)

/-! ### C10 — quitting, and editing-mode key handling -/

/-- C10.  `handle_key_event` returns `Ok(false)` exactly when the key is
the character q while `input_mode` is `Normal`; in `Editing` mode the
character q is instead appended to the input buffer, and Enter in
`Editing` mode runs the command, clears the input buffer and returns the
mode to `Normal`. -/
theorem quit_iff_q_in_normal (ms : List (String × PackageManager))
    (k : KeyCode) (s : AppState) :
    ((App.handle_key_event ms k s).2 = false ↔
      (s.input_mode = InputMode.Normal ∧ k = KeyCode.char 'q')) ∧
    (s.input_mode = InputMode.Editing →
      (App.handle_key_event ms (KeyCode.char 'q') s).1.input = s.input.push 'q') ∧
    (s.input_mode = InputMode.Editing →
      (App.handle_key_event ms KeyCode.enter s).1.input = "" ∧
      (App.handle_key_event ms KeyCode.enter s).1.input_mode = InputMode.Normal) := by
  refine ⟨?_, ?_, ?_⟩
  · unfold App.handle_key_event
    cases hm : s.input_mode with
    | Normal =>
        cases k with
        | char c =>
            by_cases hq : c = 'q'
            · simp [hq]
            · by_cases he : c = 'e' <;> simp [hq, he]
        | tab => simp
        | enter => simp
        | backspace => simp
        | esc => simp
        | other => simp
    | Editing =>
        cases k with
        | char c => simp
        | tab => simp
        | enter => simp
        | backspace => simp
        | esc => simp
        | other => simp
  · intro hm
    unfold App.handle_key_event
    rw [hm]
  · intro hm
    unfold App.handle_key_event
    rw [hm]
    exact ⟨rfl, rfl⟩

/-- A concrete editing-mode state for the C10 witness. -/
def sEdit : AppState :=
  { App.initialState with input_mode := InputMode.Editing, input := "ab" }

/-- C10 witness: in a concrete editing-mode state with buffer "ab",
pressing q appends (buffer "abq"), pressing Enter clears the buffer and
returns to `Normal` mode; and in the initial (`Normal`) state, q yields
`Ok(false)`. -/
theorem quit_iff_q_in_normal_witness :
    (App.handle_key_event [] (KeyCode.char 'q') sEdit).1.input = "abq" ∧
    (App.handle_key_event [] KeyCode.enter sEdit).1.input = "" ∧
    (App.handle_key_event [] KeyCode.enter sEdit).1.input_mode = InputMode.Normal ∧
    (App.handle_key_event [] (KeyCode.char 'q') App.initialState).2 = false := by
  have hEdit := quit_iff_q_in_normal [] (KeyCode.char 'q') sEdit
  have hEnter := quit_iff_q_in_normal [] KeyCode.enter sEdit
  have hNormal := quit_iff_q_in_normal [] (KeyCode.char 'q') App.initialState
  refine ⟨?_, (hEnter.2.2 rfl).1, (hEnter.2.2 rfl).2, ?_⟩
  · have h := hEdit.2.1 rfl
    simpa using h
  · exact hNormal.1.mpr ⟨rfl, rfl⟩
